import Mathlib

/-!
Shallow embedding of src/goliath/worker/worker.js: an HTTP handler with two
routes, POST /log (record an ad-click event into a key-value counter store)
and GET /stats (bearer-token-protected aggregation over recent day buckets).

Modelling conventions:
- JSON field values reachable by the handler are modelled by JSValue
  (absent field = JSValue.undef); JS numbers are restricted to integers,
  which covers every behaviour the handler exercises.
- Strings are sequences of Lean Chars; slice(0, n) is take of n chars.
- The external key-value store (env.CLICKS) is an association list of
  key, value and optional expiration-ttl; its paginated list operation is
  modelled by a pager function giving, for each prefix, the list of pages
  the cursor loop would traverse.  Well-formedness (PagerWF) says the
  pages concatenate to exactly the keys having that prefix.
- fetch returns the response, the updated store, and the trace of store
  operations performed (get / put / list), in order.
-/

namespace Goliath

/-- A JavaScript value as far as the handler observes JSON bodies. -/
inductive JSValue where
  | undef
  | jnull
  | jbool (b : Bool)
  | jnum (n : Int)
  | jstr (s : String)
deriving DecidableEq

/-- JS truthiness of a JSValue. -/
def JSValue.truthy : JSValue → Bool
  | .undef => false
  | .jnull => false
  | .jbool b => b
  | .jnum n => n != 0
  | .jstr s => s != ""

/-- Decimal digit character, used to model JS number-to-string conversion. -/
def digitChar : Nat → Char
  | 0 => '0'
  | 1 => '1'
  | 2 => '2'
  | 3 => '3'
  | 4 => '4'
  | 5 => '5'
  | 6 => '6'
  | 7 => '7'
  | 8 => '8'
  | 9 => '9'
  | _ => '*'

/-- Fuelled digit extraction, structurally recursive so that it reduces
by evaluation; the fuel bounds the number of digits. -/
def natDigitsRevAux : Nat → Nat → List Char
  | 0, _ => []
  | fuel + 1, n =>
    if n = 0 then [] else digitChar (n % 10) :: natDigitsRevAux fuel (n / 10)

/-- Decimal digits of n, least significant first (empty for 0). -/
def natDigitsRev (n : Nat) : List Char := natDigitsRevAux n n

/-- Canonical decimal string of a Nat (JS String(n) for nonnegative n). -/
def natToString (n : Nat) : String :=
  if n = 0 then "0" else String.mk (natDigitsRev n).reverse

/-- JS String(n) for an integer n. -/
def jsIntToString (m : Int) : String :=
  if m < 0 then "-" ++ natToString (-m).toNat else natToString m.toNat

/-- String coercion of a JSValue (JS String(v)). -/
def JSValue.toStr : JSValue → String
  | .undef => "undefined"
  | .jnull => "null"
  | .jbool true => "true"
  | .jbool false => "false"
  | .jnum n => jsIntToString n
  | .jstr s => s

/-- JS expression (v OR d).toString() for a default string d: the coerced
value when v is truthy, otherwise d. -/
def jsOrStr (v : JSValue) (d : String) : String :=
  if v.truthy then v.toStr else d

/-- JS expression (s OR d) for an optional string s (null and the empty
string are falsy). -/
def strOrD (s : Option String) (d : String) : String :=
  match s with
  | none => d
  | some s => if s = "" then d else s

/-- JS expression (n OR d) for an Option Int holding a parseInt result
(none models NaN, and the number 0 is falsy). -/
def intOrD (x : Option Int) (d : Int) : Int :=
  match x with
  | none => d
  | some n => if n = 0 then d else n

/-- JS expression (n OR 0) for an Int already known to be a number. -/
def jsOr0 (n : Int) : Int := if n = 0 then 0 else n

/-- Whitespace skipped by JS parseInt. -/
def isWS (c : Char) : Bool :=
  c.toNat = 32 || c.toNat = 9 || c.toNat = 10 || c.toNat = 13 ||
  c.toNat = 12 || c.toNat = 11 || c.toNat = 160 || c.toNat = 65279

/-- Decimal digit test used by parseInt. -/
def isDig (c : Char) : Bool := 48 ≤ c.toNat && c.toNat ≤ 57

/-- Numeric value of a digit character. -/
def charDigit (c : Char) : Nat := c.toNat - 48

/-- Value of a big-endian digit list. -/
def digitsVal (ds : List Char) : Nat :=
  ds.foldl (fun a c => 10 * a + charDigit c) 0

/-- Longest leading run of decimal digits, none when there is no digit
(parseInt returns NaN in that case). -/
def parsePos (cs : List Char) : Option Nat :=
  let ds := cs.takeWhile isDig
  if ds.isEmpty then none else some (digitsVal ds)

/-- JS parseInt(s, 10): skip whitespace, optional sign, longest digit run;
none models NaN. -/
def parseInt (s : String) : Option Int :=
  match s.data.dropWhile isWS with
  | [] => none
  | c :: rest =>
    if c = '-' then (parsePos rest).map (fun n => -(n : Int))
    else if c = '+' then (parsePos rest).map (fun n => (n : Int))
    else (parsePos (c :: rest)).map (fun n => (n : Int))

/-- slice(0, n) on a string, counting characters. -/
def strTake (s : String) (n : Nat) : String := String.mk (s.data.take n)

/-- slice(n) on a string, counting characters. -/
def strDrop (s : String) (n : Nat) : String := String.mk (s.data.drop n)

/-- The key-value Counter Store: entries of key, value, optional ttl. -/
abbrev Store := List (String × String × Option Nat)

/-- Store point read (env.CLICKS.get): value of the entry with that key. -/
def kvGet (s : Store) (k : String) : Option String :=
  (s.find? (fun e => e.1 == k)).map (fun e => e.2.1)

/-- Entry (value and ttl) stored at a key. -/
def kvEntry (s : Store) (k : String) : Option (String × Option Nat) :=
  (s.find? (fun e => e.1 == k)).map (fun e => e.2)

/-- Store write (env.CLICKS.put): replace the entry with that key, or
append a fresh one. -/
def kvPut : Store → String → String → Option Nat → Store
  | [], k, v, t => [(k, v, t)]
  | e :: rest, k, v, t =>
    if e.1 = k then (k, v, t) :: rest else e :: kvPut rest k v t

/-- Keys of the store having the given prefix, in store order: the set of
keys the paginated list operation enumerates for that prefix. -/
def listKeys (s : Store) (pfx : String) : List String :=
  (s.filter (fun e => pfx.data.isPrefixOf e.1.data)).map (fun e => e.1)

/-- Environment bindings: the configured stats bearer secret. -/
structure Env where
  STATS_TOKEN : Option String

/-- worker.js line 7: env.STATS_TOKEN AND auth equals the string
Bearer followed by the token (a falsy, i.e. unset or empty, token never
authorizes). -/
def authedB (env : Env) (auth : String) : Bool :=
  match env.STATS_TOKEN with
  | none => false
  | some t => if t = "" then false else auth == "Bearer " ++ t

/-- The JSON body fields the /log handler reads (undef when absent). -/
structure JSBody where
  ts : JSValue
  ad_id : JSValue
  genre : JSValue
  page_id : JSValue
  page_url : JSValue
deriving DecidableEq

/-- An inbound HTTP request as the handler observes it: method, path,
the days query parameter, the authorization header, and the JSON body
(none models a body that fails to parse, for a /log request). -/
structure Request where
  method : String
  path : String
  queryDays : Option String
  authHeader : Option String
  body : Option JSBody

/-- Ambient context: environment bindings, the current UTC instant as an
ISO-8601 string, today as a count of days since 1970-01-01 UTC, and the
store's pagination behaviour for prefix listing. -/
structure Ctx where
  env : Env
  nowISO : String
  today : Int
  pager : String → List (List String)

/-- A store operation, recorded in the order the handler performs it. -/
inductive Op where
  | get (k : String)
  | put (k : String) (v : String) (ttl : Option Nat)
  | list (pfx : String)
deriving DecidableEq

/-- An HTTP response: plain text with a status, or the 200 JSON stats
payload carrying days and the by_ad_id totals. -/
inductive Response where
  | text (status : Nat) (body : String)
  | json (days : Int) (by_ad_id : List (String × Int))
deriving DecidableEq

/-- Status code of a response (Response.json always carries 200). -/
def Response.status : Response → Nat
  | .text s _ => s
  | .json _ _ => 200

/-- The days field of a JSON stats response. -/
def respDays : Response → Int
  | .text _ _ => 0
  | .json d _ => d

/-- The by_ad_id mapping of a JSON stats response. -/
def respBy : Response → List (String × Int)
  | .text _ _ => []
  | .json _ b => b

/-- worker.js line 17: timestamp is the ts field coerced to a string, or
the current UTC instant when ts is absent or falsy. -/
def tsOf (ctx : Ctx) (body : JSBody) : String := jsOrStr body.ts ctx.nowISO

/-- worker.js line 18: ad_id coerced to a string (empty if falsy) and
truncated to 120 characters. -/
def adIdOf (body : JSBody) : String := strTake (jsOrStr body.ad_id "") 120

/-- worker.js line 19: genre, truncated to 80 characters. -/
def genreOf (body : JSBody) : String := strTake (jsOrStr body.genre "") 80

/-- worker.js line 20: page_id, truncated to 80 characters. -/
def pageIdOf (body : JSBody) : String := strTake (jsOrStr body.page_id "") 80

/-- worker.js line 21: page_url, truncated to 300 characters. -/
def pageUrlOf (body : JSBody) : String := strTake (jsOrStr body.page_url "") 300

/-- worker.js line 26: day bucket is the first 10 characters of the
timestamp, with no validation. -/
def dayOf (ctx : Ctx) (body : JSBody) : String := strTake (tsOf ctx body) 10

/-- worker.js line 27: the counter key click:day:ad_id. -/
def counterKeyOf (ctx : Ctx) (body : JSBody) : String :=
  "click:" ++ dayOf ctx body ++ ":" ++ adIdOf body

/-- worker.js line 30: current counter value, parsed from the store with
missing or empty value replaced by the string 0 and a NaN or 0 parse
result replaced by the number 0. -/
def counterVal (s : Store) (k : String) : Int :=
  intOrD (parseInt (strOrD (kvGet s k) "0")) 0

/-- Hex digit character (lowercase), for JSON control-character escapes. -/
def hexDigit (n : Nat) : Char :=
  if n < 10 then digitChar n
  else if n = 10 then 'a'
  else if n = 11 then 'b'
  else if n = 12 then 'c'
  else if n = 13 then 'd'
  else if n = 14 then 'e'
  else 'f'

/-- JSON string escaping of one character, as JSON.stringify performs. -/
def escChar (c : Char) : String :=
  if c = '"' then "\\\""
  else if c = '\\' then "\\\\"
  else if c = '\n' then "\\n"
  else if c = '\r' then "\\r"
  else if c = '\t' then "\\t"
  else if c.toNat = 8 then "\\b"
  else if c.toNat = 12 then "\\f"
  else if c.toNat < 32 then
    "\\u00" ++ String.mk [hexDigit (c.toNat / 16), hexDigit (c.toNat % 16)]
  else String.mk [c]

/-- JSON string escaping. -/
def jsonEscape (s : String) : String :=
  s.data.foldl (fun acc c => acc ++ escChar c) ""

/-- worker.js line 34: JSON.stringify of the metadata object with fields
genre, page_id and page_url. -/
def metaJSON (g p u : String) : String :=
  "\x7b\"genre\":\"" ++ jsonEscape g ++ "\",\"page_id\":\"" ++ jsonEscape p ++
    "\",\"page_url\":\"" ++ jsonEscape u ++ "\"\x7d"

/-- worker.js line 42: days query parameter with default 7, NaN-or-zero
fallback 7, clamped by max 1 of min 30. -/
def daysParam (q : Option String) : Int :=
  max 1 (min 30 (intOrD (parseInt (strOrD q "7")) 7))

/-- Gregorian civil date (year, month, day) from a count of days since
1970-01-01, following the standard civil-from-days algorithm; all
divisions act on nonnegative operands for the dates the handler uses. -/
def civilFromDays (z0 : Int) : Int × Int × Int :=
  let z := z0 + 719468
  let era : Int := (if 0 ≤ z then z else z - 146096) / 146097
  let doe : Int := z - era * 146097
  let yoe : Int := (doe - doe / 1460 + doe / 36524 - doe / 146096) / 365
  let y : Int := yoe + era * 400
  let doy : Int := doe - (365 * yoe + yoe / 4 - yoe / 100)
  let mp : Int := (5 * doy + 2) / 153
  let d : Int := doy - (153 * mp + 2) / 5 + 1
  let m : Int := mp + (if mp < 10 then 3 else -9)
  (y + (if m ≤ 2 then 1 else 0), m, d)

/-- Two-digit zero-padded decimal. -/
def pad2 (n : Nat) : String :=
  if n < 10 then "0" ++ natToString n else natToString n

/-- Four-digit zero-padded decimal. -/
def pad4 (n : Nat) : String :=
  if n < 10 then "000" ++ natToString n
  else if n < 100 then "00" ++ natToString n
  else if n < 1000 then "0" ++ natToString n
  else natToString n

/-- worker.js lines 48-50: the date string YYYY-MM-DD of a day count,
as toISOString().slice(0, 10) produces. -/
def dateISO (z : Int) : String :=
  let c := civilFromDays z
  pad4 c.1.toNat ++ "-" ++ pad2 c.2.1.toNat ++ "-" ++ pad2 c.2.2.toNat

/-- worker.js lines 47-50: the most recent days dates, walking backward
from today. -/
def scanDates (ctx : Ctx) (days : Int) : List String :=
  (List.range days.toNat).map (fun i => dateISO (ctx.today - (i : Int)))

/-- worker.js line 63: add v into the running by_ad_id total for key a
(the JS object assignment by_ad_id of a becomes existing-or-0 plus v). -/
def bump : List (String × Int) → String → Int → List (String × Int)
  | [], a, v => [(a, 0 + v)]
  | (a1, v1) :: rest, a, v =>
    if a1 = a then (a1, jsOr0 v1 + v) :: rest else (a1, v1) :: bump rest a v

/-- Reading a total from the by_ad_id mapping, 0 when absent. -/
def lookupBy : List (String × Int) → String → Int
  | [], _ => 0
  | (a, v) :: rest, x => if a = x then v else lookupBy rest x

/-- worker.js line 62: the counter value fetched for a listed key during
the stats scan. -/
def jsGetInt (s : Store) (k : String) : Int :=
  intOrD (parseInt (strOrD (kvGet s k) "0")) 0

/-- worker.js lines 61-64: process one listed key, extracting the ad_id
suffix after the prefix of length n and accumulating its value. -/
def scanKeyStep (s : Store) (n : Nat) (m : List (String × Int)) (k : String) :
    List (String × Int) :=
  bump m (strDrop k n) (jsGetInt s k)

/-- One page of the cursor loop: fold the key step over the page. -/
def scanPage (s : Store) (n : Nat) (m : List (String × Int))
    (page : List String) : List (String × Int) :=
  page.foldl (scanKeyStep s n) m

/-- worker.js lines 55-66: the do-while cursor loop for one date prefix,
following the pager's pages until exhausted. -/
def scanDate (ctx : Ctx) (s : Store) (m : List (String × Int)) (dt : String) :
    List (String × Int) :=
  (ctx.pager ("click:" ++ dt ++ ":")).foldl
    (scanPage s (String.length ("click:" ++ dt ++ ":"))) m

/-- worker.js lines 44-66: the by_ad_id accumulation over all scanned
dates, starting from the empty object. -/
def statsBy (ctx : Ctx) (s : Store) (dates : List String) :
    List (String × Int) :=
  dates.foldl (scanDate ctx s) []

/-- Store operations performed by the stats scan, in order: one list call
per page (at least one per date) and one get per listed key. -/
def statsOps (ctx : Ctx) (dates : List String) : List Op :=
  (dates.map (fun dt =>
    let pfx := "click:" ++ dt ++ ":"
    let pgs := ctx.pager pfx
    if pgs.isEmpty then [Op.list pfx]
    else (pgs.map (fun pg => Op.list pfx :: pg.map Op.get)).flatten)).flatten

/-- worker.js lines 29-34: the store after a valid log event: the counter
at the click key is read, incremented and written back, then the metadata
record is overwritten with a 30-day (2592000 seconds) expiration. -/
def logStore (ctx : Ctx) (body : JSBody) (store : Store) : Store :=
  kvPut
    (kvPut store (counterKeyOf ctx body)
      (jsIntToString (counterVal store (counterKeyOf ctx body) + 1)) none)
    ("meta:" ++ adIdOf body)
    (metaJSON (genreOf body) (pageIdOf body) (pageUrlOf body)) (some 2592000)

/-- Store operations of a valid log event, in order. -/
def logOps (ctx : Ctx) (body : JSBody) (store : Store) : List Op :=
  [Op.get (counterKeyOf ctx body),
   Op.put (counterKeyOf ctx body)
     (jsIntToString (counterVal store (counterKeyOf ctx body) + 1)) none,
   Op.put ("meta:" ++ adIdOf body)
     (metaJSON (genreOf body) (pageIdOf body) (pageUrlOf body)) (some 2592000)]

/-- The worker's fetch handler: dispatch on path and method, handle /log
ingestion and /stats aggregation, 404 otherwise.  Returns the response,
the resulting store, and the trace of store operations. -/
def fetch (ctx : Ctx) (req : Request) (store : Store) :
    Response × Store × List Op :=
  if req.path = "/log" ∧ req.method = "POST" then
    match req.body with
    | none => (Response.text 400 "bad json", store, [])
    | some body =>
      if adIdOf body = "" then (Response.text 400 "missing ad_id", store, [])
      else (Response.text 200 "ok", logStore ctx body store,
            logOps ctx body store)
  else if req.path = "/stats" ∧ req.method = "GET" then
    if authedB ctx.env (req.authHeader.getD "") then
      (Response.json (daysParam req.queryDays)
        (statsBy ctx store (scanDates ctx (daysParam req.queryDays))),
       store,
       statsOps ctx (scanDates ctx (daysParam req.queryDays)))
    else (Response.text 401 "unauthorized", store, [])
  else (Response.text 404 "not found", store, [])

/-- A POST /log request with the given parsed JSON body. -/
def mkLog (body : JSBody) : Request :=
  { method := "POST", path := "/log", queryDays := none, authHeader := none,
    body := some body }

/-- A GET /stats request with the given authorization header and days
query parameter. -/
def statsReq (auth : Option String) (q : Option String) : Request :=
  { method := "GET", path := "/stats", queryDays := q, authHeader := auth,
    body := none }

/-- N sequential (non-concurrent) submissions of the same log request,
threading the store. -/
def iterateLog (ctx : Ctx) (body : JSBody) : Nat → Store → Store
  | 0, s => s
  | Nat.succ n, s => iterateLog ctx body n (fetch ctx (mkLog body) s).2.1

/-- Sequentially apply a list of log events to the store. -/
def applyLogs (ctx : Ctx) (bs : List JSBody) (s : Store) : Store :=
  bs.foldl (fun s2 x => (fetch ctx (mkLog x) s2).2.1) s

/-- The pager is well-formed for a store when, for every prefix, its pages
concatenate to exactly the matching keys (the cursor loop enumerates each
matching key once). -/
def PagerWF (pager : String → List (List String)) (s : Store) : Prop :=
  ∀ pfx, (pager pfx).flatten = listKeys s pfx

/-- A single-page pager: everything in one list call. -/
def onePager (s : Store) : String → List (List String) :=
  fun pfx => [listKeys s pfx]

/-- Invariant on the Counter Store (spec section 3): every entry whose key
begins with click: holds a nonnegative integer in canonical decimal form,
and its key decomposes as click:day:ad with a nonempty ad part. -/
def CounterInv (s : Store) : Prop :=
  ∀ e ∈ s, ∀ rest : String, e.1 = "click:" ++ rest →
    (∃ n : Nat, e.2.1 = natToString n) ∧
    ∃ d a : String, e.1 = "click:" ++ d ++ ":" ++ a ∧ a ≠ ""

/-! Concrete instances used to exercise the theorems on the spec's
worked examples. -/

/-- The store of the spec's stats example: counters 3 and 2 for ad a1 on
two consecutive days and 5 for ad b2 on the second day. -/
def storeW : Store :=
  [("click:2024-01-01:a1", "3", none),
   ("click:2024-01-02:a1", "2", none),
   ("click:2024-01-02:b2", "5", none)]

/-- Context anchored at 2024-01-02 UTC (day 19724 since the epoch) with a
configured secret s0 and a single-page pager over storeW. -/
def ctxW : Ctx :=
  { env := { STATS_TOKEN := some "s0" },
    nowISO := "2024-01-02T10:00:00.000Z",
    today := 19724,
    pager := onePager storeW }

/-- A context with no configured secret and an empty pager. -/
def ctx0 : Ctx :=
  { env := { STATS_TOKEN := none },
    nowISO := "2024-01-02T10:00:00.000Z",
    today := 19724,
    pager := fun _ => [] }

/-- A valid log body for ad a1. -/
def body0 : JSBody :=
  { ts := .jstr "2024-01-02T09:00:00.000Z", ad_id := .jstr "a1",
    genre := .jstr "g1", page_id := .jstr "p1", page_url := .jstr "u1" }

/-- A second valid log body for ad a1 with different metadata. -/
def body1 : JSBody :=
  { ts := .jstr "2024-01-02T09:30:00.000Z", ad_id := .jstr "a1",
    genre := .jstr "g2", page_id := .jstr "p2", page_url := .jstr "u2" }

/-- A log body with a malformed timestamp. -/
def body6 : JSBody :=
  { ts := .jstr "garbage-timestamp!!", ad_id := .jstr "a1",
    genre := .undef, page_id := .undef, page_url := .undef }

/-- A log body with no ad_id field. -/
def bodyNoAd : JSBody :=
  { ts := .jstr "2024-01-02T09:00:00.000Z", ad_id := .undef,
    genre := .jstr "g1", page_id := .jstr "p1", page_url := .jstr "u1" }

/-- Context with a configured secret s0 and a pager that always returns
no pages (an empty store's listing behaviour). -/
def ctxC : Ctx :=
  { env := { STATS_TOKEN := some "s0" },
    nowISO := "2024-01-02T10:00:00.000Z",
    today := 19724,
    pager := fun _ => [] }

/-! Basic store lemmas. -/

theorem kvFind_put_self (s : Store) (k v : String) (t : Option Nat) :
    (kvPut s k v t).find? (fun e => e.1 == k) = some (k, v, t) := by
  induction s with
  | nil => simp [kvPut]
  | cons e rest ih =>
    unfold kvPut
    by_cases h : e.1 = k
    · rw [if_pos h]; simp
    · rw [if_neg h]
      rw [List.find?_cons_of_neg _ (by simpa using h)]
      exact ih

theorem kvFind_put_ne (s : Store) (k v : String) (t : Option Nat)
    (k2 : String) (h : k2 ≠ k) :
    (kvPut s k v t).find? (fun e => e.1 == k2) =
      s.find? (fun e => e.1 == k2) := by
  induction s with
  | nil =>
    simp only [kvPut]
    rw [List.find?_cons_of_neg _ (by simpa using fun hh => h hh.symm)]
  | cons e rest ih =>
    unfold kvPut
    by_cases he : e.1 = k
    · rw [if_pos he]
      rw [List.find?_cons_of_neg _ (by simpa using fun hh => h hh.symm)]
      rw [List.find?_cons_of_neg _ (by simp [he]; exact fun hh => h hh.symm)]
    · rw [if_neg he]
      by_cases h2 : e.1 = k2
      · rw [List.find?_cons_of_pos _ (by simpa using h2),
            List.find?_cons_of_pos _ (by simpa using h2)]
      · rw [List.find?_cons_of_neg _ (by simpa using h2),
            List.find?_cons_of_neg _ (by simpa using h2)]
        exact ih

theorem kvGet_put_self (s : Store) (k v : String) (t : Option Nat) :
    kvGet (kvPut s k v t) k = some v := by
  unfold kvGet; rw [kvFind_put_self]; rfl

theorem kvGet_put_ne (s : Store) (k v : String) (t : Option Nat)
    (k2 : String) (h : k2 ≠ k) : kvGet (kvPut s k v t) k2 = kvGet s k2 := by
  unfold kvGet; rw [kvFind_put_ne s k v t k2 h]

theorem kvEntry_put_self (s : Store) (k v : String) (t : Option Nat) :
    kvEntry (kvPut s k v t) k = some (v, t) := by
  unfold kvEntry; rw [kvFind_put_self]; rfl

theorem kvEntry_put_ne (s : Store) (k v : String) (t : Option Nat)
    (k2 : String) (h : k2 ≠ k) :
    kvEntry (kvPut s k v t) k2 = kvEntry s k2 := by
  unfold kvEntry; rw [kvFind_put_ne s k v t k2 h]

theorem mem_kvPut (s : Store) (k v : String) (t : Option Nat)
    (e : String × String × Option Nat) (he : e ∈ kvPut s k v t) :
    e = (k, v, t) ∨ e ∈ s := by
  induction s with
  | nil => simpa [kvPut] using he
  | cons e0 rest ih =>
    unfold kvPut at he
    by_cases h : e0.1 = k
    · rw [if_pos h] at he
      rcases List.mem_cons.mp he with h1 | h1
      · exact Or.inl h1
      · exact Or.inr (List.mem_cons_of_mem _ h1)
    · rw [if_neg h] at he
      rcases List.mem_cons.mp he with h1 | h1
      · exact Or.inr (h1 ▸ List.mem_cons_self _ _)
      · rcases ih h1 with h2 | h2
        · exact Or.inl h2
        · exact Or.inr (List.mem_cons_of_mem _ h2)

theorem meta_ne_click (a r : String) : ¬ ("meta:" ++ a = "click:" ++ r) := by
  intro h
  have h1 := congrArg String.data h
  rw [String.data_append, String.data_append] at h1
  rw [show ("meta:" : String).data = ['m', 'e', 't', 'a', ':'] from rfl,
      show ("click:" : String).data = ['c', 'l', 'i', 'c', 'k', ':'] from rfl]
    at h1
  have h2 := congrArg List.head? h1
  simp at h2

theorem click_ne_meta (x y : String) : ¬ ("click:" ++ x = "meta:" ++ y) :=
  fun h => meta_ne_click y x h.symm

/-! Decimal strings round-trip through parseInt. -/

theorem jsOr0_eq (n : Int) : jsOr0 n = n := by
  unfold jsOr0; split <;> omega

theorem intOrD_some0 (m : Int) : intOrD (some m) 0 = m := by
  by_cases h : m = 0
  · simp [intOrD, h]
  · simp [intOrD, h]

theorem natDigitsRevAux_congr :
    ∀ (f1 f2 n : Nat), n ≤ f1 → n ≤ f2 →
      natDigitsRevAux f1 n = natDigitsRevAux f2 n := by
  intro f1
  induction f1 with
  | zero =>
    intro f2 n h1 _
    have hn : n = 0 := Nat.le_zero.mp h1
    subst hn
    cases f2 with
    | zero => rfl
    | succ g => simp [natDigitsRevAux]
  | succ f ih =>
    intro f2 n h1 h2
    cases f2 with
    | zero =>
      have hn : n = 0 := Nat.le_zero.mp h2
      subst hn
      simp [natDigitsRevAux]
    | succ g =>
      by_cases hn : n = 0
      · subst hn; simp [natDigitsRevAux]
      · have hdiv : n / 10 < n := Nat.div_lt_self (Nat.pos_of_ne_zero hn)
          (by decide)
        simp only [natDigitsRevAux, hn, if_false]
        rw [ih g (n / 10) (by omega) (by omega)]

theorem natDigitsRev_zero : natDigitsRev 0 = [] := rfl

theorem natDigitsRev_pos {n : Nat} (h : n ≠ 0) :
    natDigitsRev n = digitChar (n % 10) :: natDigitsRev (n / 10) := by
  unfold natDigitsRev
  cases hn : n with
  | zero => exact absurd hn h
  | succ m =>
    show natDigitsRevAux (m + 1) (m + 1) = _
    have hdiv : (m + 1) / 10 < m + 1 := Nat.div_lt_self (by omega) (by decide)
    simp only [natDigitsRevAux, Nat.succ_ne_zero, if_false]
    rw [natDigitsRevAux_congr m ((m + 1) / 10) ((m + 1) / 10)
      (by omega) (by omega)]

theorem isDig_digitChar {d : Nat} (h : d < 10) : isDig (digitChar d) = true := by
  interval_cases d <;> decide

theorem charDigit_digitChar {d : Nat} (h : d < 10) :
    charDigit (digitChar d) = d := by
  interval_cases d <;> decide

theorem natDigitsRev_digits {n : Nat} :
    ∀ c ∈ natDigitsRev n, isDig c = true := by
  induction n using Nat.strong_induction_on with
  | _ n ih =>
    intro c hc
    by_cases h : n = 0
    · subst h; rw [natDigitsRev_zero] at hc; simp at hc
    · rw [natDigitsRev_pos h] at hc
      rcases List.mem_cons.mp hc with rfl | hc2
      · exact isDig_digitChar (Nat.mod_lt n (by decide))
      · exact ih (n / 10) (Nat.div_lt_self (Nat.pos_of_ne_zero h) (by decide))
          c hc2

theorem digitsVal_append (ds : List Char) (c : Char) :
    digitsVal (ds ++ [c]) = 10 * digitsVal ds + charDigit c := by
  simp [digitsVal, List.foldl_append]

theorem digitsVal_rev (n : Nat) : digitsVal (natDigitsRev n).reverse = n := by
  induction n using Nat.strong_induction_on with
  | _ n ih =>
    by_cases h : n = 0
    · subst h; rw [natDigitsRev_zero]; simp [digitsVal]
    · rw [natDigitsRev_pos h, List.reverse_cons, digitsVal_append,
        ih (n / 10) (Nat.div_lt_self (Nat.pos_of_ne_zero h) (by decide)),
        charDigit_digitChar (Nat.mod_lt n (by decide))]
      omega

theorem takeWhile_all {α : Type} {p : α → Bool} :
    ∀ {l : List α}, (∀ c ∈ l, p c = true) → l.takeWhile p = l := by
  intro l
  induction l with
  | nil => intro _; rfl
  | cons c t ih =>
    intro h
    rw [List.takeWhile_cons, h c (List.mem_cons_self c t)]
    simp [ih fun x hx => h x (List.mem_cons_of_mem c hx)]

theorem natToString_data (n : Nat) :
    (natToString n).data = if n = 0 then ['0'] else (natDigitsRev n).reverse := by
  unfold natToString; split <;> rfl

theorem natDigitsRev_ne_nil {n : Nat} (h : n ≠ 0) : natDigitsRev n ≠ [] := by
  rw [natDigitsRev_pos h]; simp

theorem parsePos_natToString (n : Nat) :
    parsePos (natToString n).data = some n := by
  by_cases h : n = 0
  · subst h; decide
  · rw [natToString_data, if_neg h]
    unfold parsePos
    rw [takeWhile_all fun c hc =>
      natDigitsRev_digits c (List.mem_reverse.mp hc)]
    have hne : (natDigitsRev n).reverse ≠ [] := by
      simpa using natDigitsRev_ne_nil h
    obtain ⟨c, t, hct⟩ := List.exists_cons_of_ne_nil hne
    rw [hct]
    simp only [List.isEmpty_cons, if_false, Bool.false_eq_true]
    rw [← hct, digitsVal_rev]

theorem isDig_not_WS {c : Char} (h : isDig c = true) : isWS c = false := by
  simp only [isDig, Bool.and_eq_true, decide_eq_true_eq] at h
  simp only [isWS, Bool.or_eq_false_iff, decide_eq_false_iff_not]
  omega

theorem isDig_ne_minus {c : Char} (h : isDig c = true) : ¬ c = '-' := by
  intro hc; subst hc; simp [isDig] at h

theorem isDig_ne_plus {c : Char} (h : isDig c = true) : ¬ c = '+' := by
  intro hc; subst hc; simp [isDig] at h

theorem parseInt_natToString (n : Nat) :
    parseInt (natToString n) = some (n : Int) := by
  by_cases h : n = 0
  · subst h; decide
  · have hne : (natToString n).data ≠ [] := by
      rw [natToString_data, if_neg h]
      simpa using natDigitsRev_ne_nil h
    obtain ⟨c, t, hct⟩ := List.exists_cons_of_ne_nil hne
    have hcdig : isDig c = true := by
      have hmem : c ∈ (natToString n).data := by
        rw [hct]; exact List.mem_cons_self c t
      rw [natToString_data, if_neg h] at hmem
      exact natDigitsRev_digits c (List.mem_reverse.mp hmem)
    unfold parseInt
    rw [hct, List.dropWhile_cons, isDig_not_WS hcdig]
    simp only [Bool.false_eq_true, if_false]
    rw [if_neg (isDig_ne_minus hcdig), if_neg (isDig_ne_plus hcdig)]
    rw [← hct, parsePos_natToString]
    rfl

theorem parseInt_jsIntToString (m : Int) :
    parseInt (jsIntToString m) = some m := by
  by_cases h : m < 0
  · unfold jsIntToString
    rw [if_pos h]
    have hdata : ("-" ++ natToString (-m).toNat).data =
        '-' :: (natToString (-m).toNat).data := by
      rw [String.data_append]; rfl
    unfold parseInt
    rw [hdata, List.dropWhile_cons,
      show isWS '-' = false from by decide]
    simp only [Bool.false_eq_true, if_false]
    rw [parsePos_natToString]
    have hm : ((-m).toNat : Int) = -m := Int.toNat_of_nonneg (by omega)
    simp [hm]
  · unfold jsIntToString
    rw [if_neg h]
    rw [parseInt_natToString]
    have : (m.toNat : Int) = m := Int.toNat_of_nonneg (by omega)
    rw [this]

theorem natToString_ne_empty (n : Nat) : natToString n ≠ "" := by
  intro hh
  have hd := congrArg String.data hh
  rw [natToString_data] at hd
  by_cases h : n = 0
  · rw [if_pos h] at hd; simp at hd
  · rw [if_neg h] at hd
    have : natDigitsRev n = [] := by simpa using hd
    exact natDigitsRev_ne_nil h this

theorem jsIntToString_ne_empty (m : Int) : jsIntToString m ≠ "" := by
  unfold jsIntToString
  split
  · intro hh
    have hd := congrArg String.data hh
    rw [String.data_append] at hd
    simp [show ("-" : String).data = ['-'] from rfl] at hd
  · exact natToString_ne_empty _

theorem jsIntToString_coe (n : Nat) : jsIntToString (n : Int) = natToString n := by
  unfold jsIntToString
  rw [if_neg (by omega)]
  rfl

theorem counterVal_of_get_js (s : Store) (k : String) (m : Int)
    (h : kvGet s k = some (jsIntToString m)) : counterVal s k = m := by
  unfold counterVal
  rw [h]
  have hs : strOrD (some (jsIntToString m)) "0" = jsIntToString m := by
    simp only [strOrD]
    rw [if_neg (jsIntToString_ne_empty m)]
  rw [hs, parseInt_jsIntToString]
  exact intOrD_some0 m

theorem counterVal_of_get_nat (s : Store) (k : String) (n : Nat)
    (h : kvGet s k = some (natToString n)) : counterVal s k = (n : Int) := by
  apply counterVal_of_get_js
  rw [h, jsIntToString_coe]

theorem counterVal_of_get_none (s : Store) (k : String)
    (h : kvGet s k = none) : counterVal s k = 0 := by
  unfold counterVal
  rw [h]
  decide

/-! Routing reductions of fetch. -/

theorem fetch_mkLog_eq (ctx : Ctx) (body : JSBody) (store : Store) :
    fetch ctx (mkLog body) store =
      if adIdOf body = "" then (Response.text 400 "missing ad_id", store, [])
      else (Response.text 200 "ok", logStore ctx body store,
            logOps ctx body store) := rfl

theorem fetch_statsReq_eq (ctx : Ctx) (a : Option String) (store : Store)
    (q : Option String) :
    fetch ctx (statsReq a q) store =
      if authedB ctx.env (a.getD "") then
        (Response.json (daysParam q)
          (statsBy ctx store (scanDates ctx (daysParam q))),
         store, statsOps ctx (scanDates ctx (daysParam q)))
      else (Response.text 401 "unauthorized", store, []) := rfl

theorem fetch_log_valid (ctx : Ctx) (body : JSBody) (store : Store)
    (ha : adIdOf body ≠ "") :
    fetch ctx (mkLog body) store =
      (Response.text 200 "ok", logStore ctx body store,
       logOps ctx body store) := by
  rw [fetch_mkLog_eq, if_neg ha]

theorem fetch_log_empty (ctx : Ctx) (body : JSBody) (store : Store)
    (ha : adIdOf body = "") :
    fetch ctx (mkLog body) store =
      (Response.text 400 "missing ad_id", store, []) := by
  rw [fetch_mkLog_eq, if_pos ha]

theorem fetch_stats_shape (ctx : Ctx) (req : Request) (store : Store)
    (hp : req.path = "/stats") (hm : req.method = "GET") :
    fetch ctx req store =
      if authedB ctx.env (req.authHeader.getD "") then
        (Response.json (daysParam req.queryDays)
          (statsBy ctx store (scanDates ctx (daysParam req.queryDays))),
         store, statsOps ctx (scanDates ctx (daysParam req.queryDays)))
      else (Response.text 401 "unauthorized", store, []) := by
  unfold fetch
  rw [if_neg (fun hc => absurd (hp ▸ hc.1) (by decide)), if_pos ⟨hp, hm⟩]

theorem fetch_stats_unauthed (ctx : Ctx) (req : Request) (store : Store)
    (hp : req.path = "/stats") (hm : req.method = "GET")
    (hA : authedB ctx.env (req.authHeader.getD "") = false) :
    fetch ctx req store = (Response.text 401 "unauthorized", store, []) := by
  rw [fetch_stats_shape ctx req store hp hm, if_neg (by simp [hA])]

theorem fetch_statsReq_congr (ctx : Ctx) (a : Option String) (store : Store)
    (q1 q2 : Option String) (h : daysParam q1 = daysParam q2) :
    fetch ctx (statsReq a q1) store = fetch ctx (statsReq a q2) store := by
  rw [fetch_statsReq_eq, fetch_statsReq_eq, h]

/-! The log branch: counter increment and metadata overwrite. -/

theorem counterKeyOf_ne_meta (ctx : Ctx) (body : JSBody) :
    counterKeyOf ctx body ≠ "meta:" ++ adIdOf body :=
  click_ne_meta _ _

theorem kvGet_logStore_counter (ctx : Ctx) (body : JSBody) (store : Store) :
    kvGet (logStore ctx body store) (counterKeyOf ctx body) =
      some (jsIntToString (counterVal store (counterKeyOf ctx body) + 1)) := by
  unfold logStore
  rw [kvGet_put_ne _ _ _ _ _ (counterKeyOf_ne_meta ctx body), kvGet_put_self]

theorem counterVal_logStore (ctx : Ctx) (body : JSBody) (store : Store) :
    counterVal (logStore ctx body store) (counterKeyOf ctx body) =
      counterVal store (counterKeyOf ctx body) + 1 :=
  counterVal_of_get_js _ _ _ (kvGet_logStore_counter ctx body store)

theorem iterateLog_counter (ctx : Ctx) (body : JSBody)
    (ha : adIdOf body ≠ "") :
    ∀ (N : Nat) (store : Store),
      counterVal (iterateLog ctx body N store) (counterKeyOf ctx body) =
        counterVal store (counterKeyOf ctx body) + (N : Int) := by
  intro N
  induction N with
  | zero => intro store; simp [iterateLog]
  | succ n ih =>
    intro store
    show counterVal (iterateLog ctx body n (fetch ctx (mkLog body) store).2.1)
        (counterKeyOf ctx body) = _
    rw [ih, fetch_log_valid ctx body store ha]
    show counterVal (logStore ctx body store) (counterKeyOf ctx body) +
        (n : Int) =
      counterVal store (counterKeyOf ctx body) + ((n + 1 : Nat) : Int)
    rw [counterVal_logStore]
    push_cast
    ring

theorem kvEntry_logStore_meta (ctx : Ctx) (body : JSBody) (store : Store) :
    kvEntry (logStore ctx body store) ("meta:" ++ adIdOf body) =
      some (metaJSON (genreOf body) (pageIdOf body) (pageUrlOf body),
            some 2592000) := by
  unfold logStore
  rw [kvEntry_put_self]

theorem kvEntry_logStore_other (ctx : Ctx) (body : JSBody) (store : Store)
    (k : String) (h1 : k ≠ counterKeyOf ctx body)
    (h2 : k ≠ "meta:" ++ adIdOf body) :
    kvEntry (logStore ctx body store) k = kvEntry store k := by
  unfold logStore
  rw [kvEntry_put_ne _ _ _ _ _ h2, kvEntry_put_ne _ _ _ _ _ h1]

theorem applyLogs_append_single (ctx : Ctx) (L : List JSBody) (b : JSBody)
    (store : Store) :
    applyLogs ctx (L ++ [b]) store =
      (fetch ctx (mkLog b) (applyLogs ctx L store)).2.1 := by
  unfold applyLogs
  rw [List.foldl_append]
  rfl

/-! Preservation of the counter-store invariant. -/

theorem fetch_store_cases (ctx : Ctx) (req : Request) (s : Store) :
    (fetch ctx req s).2.1 = s ∨
      ∃ body, req.body = some body ∧ adIdOf body ≠ "" ∧
        (fetch ctx req s).2.1 = logStore ctx body s := by
  unfold fetch
  by_cases h1 : req.path = "/log" ∧ req.method = "POST"
  · rw [if_pos h1]
    cases hb : req.body with
    | none => exact Or.inl rfl
    | some body =>
      by_cases ha : adIdOf body = ""
      · left
        show (if adIdOf body = ""
            then (Response.text 400 "missing ad_id", s, ([] : List Op))
            else (Response.text 200 "ok", logStore ctx body s,
              logOps ctx body s)).2.1 = s
        rw [if_pos ha]
      · right
        refine ⟨body, rfl, ha, ?_⟩
        show (if adIdOf body = ""
            then (Response.text 400 "missing ad_id", s, ([] : List Op))
            else (Response.text 200 "ok", logStore ctx body s,
              logOps ctx body s)).2.1 = logStore ctx body s
        rw [if_neg ha]
  · rw [if_neg h1]
    by_cases h2 : req.path = "/stats" ∧ req.method = "GET"
    · rw [if_pos h2]
      by_cases hA : authedB ctx.env (req.authHeader.getD "")
      · rw [if_pos hA]; exact Or.inl rfl
      · rw [if_neg hA]; exact Or.inl rfl
    · rw [if_neg h2]; exact Or.inl rfl

theorem counterInv_counterVal (s : Store) (hinv : CounterInv s)
    (rest : String) (k : String) (hk : k = "click:" ++ rest) :
    ∃ n : Nat, counterVal s k = (n : Int) := by
  cases hget : kvGet s k with
  | none => exact ⟨0, by rw [counterVal_of_get_none s k hget]; rfl⟩
  | some v =>
    unfold kvGet at hget
    cases hfind : s.find? (fun e => e.1 == k) with
    | none => rw [hfind] at hget; simp at hget
    | some e =>
      rw [hfind] at hget
      simp only [Option.map_some'] at hget
      injection hget with hv
      have hmem := List.mem_of_find?_eq_some hfind
      have hpred := List.find?_some hfind
      simp only [beq_iff_eq] at hpred
      obtain ⟨⟨n, hn⟩, _⟩ := hinv e hmem rest (by rw [hpred, hk])
      refine ⟨n, counterVal_of_get_nat s k n ?_⟩
      unfold kvGet
      rw [hfind]
      simp only [Option.map_some']
      rw [hn]

theorem counterInv_preserved (ctx : Ctx) (req : Request) (s : Store)
    (hinv : CounterInv s) : CounterInv (fetch ctx req s).2.1 := by
  rcases fetch_store_cases ctx req s with h | ⟨body, _, ha, h⟩
  · rw [h]; exact hinv
  · rw [h]
    intro e he rest hrest
    rcases mem_kvPut _ _ _ _ e he with rfl | he1
    · exact absurd hrest (meta_ne_click _ _)
    rcases mem_kvPut _ _ _ _ e he1 with rfl | he2
    · constructor
      · obtain ⟨n, hn⟩ := counterInv_counterVal s hinv
          (dayOf ctx body ++ ":" ++ adIdOf body) (counterKeyOf ctx body) rfl
        refine ⟨n + 1, ?_⟩
        show jsIntToString (counterVal s (counterKeyOf ctx body) + 1) =
          natToString (n + 1)
        rw [hn, show ((n : Int) + 1) = ((n + 1 : Nat) : Int) by push_cast; ring,
          jsIntToString_coe]
      · exact ⟨dayOf ctx body, adIdOf body, rfl, ha⟩
    · exact hinv e he2 rest hrest

theorem statsOps_no_put (ctx : Ctx) (dates : List String) (k v : String)
    (t : Option Nat) : Op.put k v t ∉ statsOps ctx dates := by
  intro h
  unfold statsOps at h
  rw [List.mem_flatten] at h
  obtain ⟨l, hl, hmem⟩ := h
  rw [List.mem_map] at hl
  obtain ⟨dt, _, hleq⟩ := hl
  rw [← hleq] at hmem
  by_cases he : (ctx.pager ("click:" ++ dt ++ ":")).isEmpty
  · simp only [he, if_pos] at hmem
    simp at hmem
  · simp only [he, Bool.false_eq_true, if_false] at hmem
    rw [List.mem_flatten] at hmem
    obtain ⟨l2, hl2, hmem2⟩ := hmem
    rw [List.mem_map] at hl2
    obtain ⟨pg, _, hpg⟩ := hl2
    rw [← hpg] at hmem2
    rcases List.mem_cons.mp hmem2 with h1 | h1
    · simp at h1
    · rw [List.mem_map] at h1
      obtain ⟨x, _, h2⟩ := h1
      simp at h2

/-! Stats aggregation: from the fold the code performs to per-ad sums. -/

theorem string_ext {a b : String} (h : a.data = b.data) : a = b := by
  cases a
  cases b
  exact congrArg String.mk h

theorem strDrop_append (pfx x : String) :
    strDrop (pfx ++ x) (String.length pfx) = x := by
  apply string_ext
  show (pfx ++ x).data.drop (String.length pfx) = x.data
  rw [String.data_append]
  exact List.drop_left pfx.data x.data

theorem isPrefixOf_append (pfx x : String) :
    pfx.data.isPrefixOf (pfx ++ x).data = true := by
  rw [ List.isPrefixOf_iff_prefix]
  exact ⟨x.data, (String.data_append pfx x).symm⟩

theorem listKeys_decomp (s : Store) (pfx k : String)
    (hk : k ∈ listKeys s pfx) :
    k = pfx ++ strDrop k (String.length pfx) := by
  unfold listKeys at hk
  rw [List.mem_map] at hk
  obtain ⟨e, he, rfl⟩ := hk
  rw [List.mem_filter] at he
  have hp := he.2
  rw [ List.isPrefixOf_iff_prefix] at hp
  obtain ⟨tl, htl⟩ := hp
  apply string_ext
  rw [String.data_append]
  show e.1.data = pfx.data ++ (e.1.data.drop (String.length pfx))
  rw [← htl]
  congr 1
  exact (List.drop_left pfx.data tl).symm

theorem mem_listKeys (s : Store) (pfx : String)
    (e : String × String × Option Nat) (he : e ∈ s)
    (hp : pfx.data.isPrefixOf e.1.data = true) : e.1 ∈ listKeys s pfx := by
  unfold listKeys
  rw [List.mem_map]
  exact ⟨e, List.mem_filter.mpr ⟨he, hp⟩, rfl⟩

theorem kvGet_none_of_not_listed (s : Store) (pfx x : String)
    (h : (pfx ++ x) ∉ listKeys s pfx) : kvGet s (pfx ++ x) = none := by
  cases hget : kvGet s (pfx ++ x) with
  | none => rfl
  | some v =>
    exfalso
    unfold kvGet at hget
    cases hfind : s.find? (fun e => e.1 == pfx ++ x) with
    | none => rw [hfind] at hget; simp at hget
    | some e =>
      have hmem := List.mem_of_find?_eq_some hfind
      have hpred := List.find?_some hfind
      simp only [beq_iff_eq] at hpred
      apply h
      rw [← hpred]
      exact mem_listKeys s pfx e hmem
        (by rw [hpred]; exact isPrefixOf_append pfx x)

theorem nodup_listKeys (s : Store) (hnd : (s.map (fun e => e.1)).Nodup)
    (pfx : String) : (listKeys s pfx).Nodup :=
  List.Nodup.sublist (List.Sublist.map _ (List.filter_sublist s)) hnd

theorem jsGetInt_of_none (s : Store) (k : String) (h : kvGet s k = none) :
    jsGetInt s k = 0 := by
  unfold jsGetInt
  rw [h]
  decide

theorem lookupBy_bump (m : List (String × Int)) (a : String) (v : Int)
    (x : String) :
    lookupBy (bump m a v) x =
      if a = x then lookupBy m x + v else lookupBy m x := by
  induction m with
  | nil =>
    by_cases h : a = x <;> simp [bump, lookupBy, h]
  | cons e rest ih =>
    obtain ⟨a1, v1⟩ := e
    by_cases h1 : a1 = a
    · subst h1
      rw [show bump ((a1, v1) :: rest) a1 v = (a1, jsOr0 v1 + v) :: rest
        from by simp [bump]]
      by_cases h2 : a1 = x <;> simp [lookupBy, h2, jsOr0_eq]
    · rw [show bump ((a1, v1) :: rest) a v = (a1, v1) :: bump rest a v
        from by simp [bump, h1]]
      by_cases h2 : a1 = x
      · subst h2
        have h3 : ¬ a = a1 := fun hh => h1 hh.symm
        simp [lookupBy, h3]
      · have h4 : lookupBy ((a1, v1) :: bump rest a v) x =
            lookupBy (bump rest a v) x := by simp [lookupBy, h2]
        rw [h4, ih]
        simp [lookupBy, h2]

theorem lookupBy_foldl_keys (s : Store) (n : Nat) :
    ∀ (ks : List String) (m : List (String × Int)) (x : String),
      lookupBy (ks.foldl (scanKeyStep s n) m) x =
        lookupBy m x +
          ((ks.map (fun k =>
            if strDrop k n = x then jsGetInt s k else 0)).sum) := by
  intro ks
  induction ks with
  | nil => intro m x; simp
  | cons k ks ih =>
    intro m x
    rw [List.foldl_cons, ih, List.map_cons, List.sum_cons]
    show lookupBy (bump m (strDrop k n) (jsGetInt s k)) x + _ = _
    rw [lookupBy_bump]
    by_cases h : strDrop k n = x
    · rw [if_pos h, if_pos h]; ring
    · rw [if_neg h, if_neg h]; ring

theorem foldl_scanPage_flatten (s : Store) (n : Nat) :
    ∀ (pgs : List (List String)) (m : List (String × Int)),
      pgs.foldl (scanPage s n) m = (pgs.flatten).foldl (scanKeyStep s n) m := by
  intro pgs
  induction pgs with
  | nil => intro m; rfl
  | cons pg pgs ih =>
    intro m
    rw [List.foldl_cons, ih, List.flatten_cons, List.foldl_append]
    rfl

theorem sum_if_eq (f : String → Int) (x : String) :
    ∀ (ks : List String), ks.Nodup →
      ((ks.map (fun k => if k = x then f k else 0)).sum) =
        if x ∈ ks then f x else 0 := by
  intro ks
  induction ks with
  | nil => intro _; simp
  | cons k ks ih =>
    intro hnd
    rw [List.map_cons, List.sum_cons, ih (List.nodup_cons.mp hnd).2]
    by_cases h : k = x
    · subst h
      have hx : k ∉ ks := (List.nodup_cons.mp hnd).1
      simp [hx]
    · have h2 : (x ∈ k :: ks) ↔ (x ∈ ks) := by
        rw [List.mem_cons]
        constructor
        · rintro (rfl | hh)
          · exact absurd rfl h
          · exact hh
        · exact Or.inr
      by_cases hx : x ∈ ks
      · rw [if_pos hx, if_pos (h2.mpr hx), if_neg h]; ring
      · rw [if_neg hx, if_neg (fun hh => hx (h2.mp hh)), if_neg h]; ring

theorem date_sum (s : Store) (hnd : (s.map (fun e => e.1)).Nodup)
    (pfx x : String) :
    (((listKeys s pfx).map (fun k =>
      if strDrop k (String.length pfx) = x then jsGetInt s k else 0)).sum) =
    jsGetInt s (pfx ++ x) := by
  have hcong : (listKeys s pfx).map (fun k =>
      if strDrop k (String.length pfx) = x then jsGetInt s k else 0) =
    (listKeys s pfx).map (fun k =>
      if k = pfx ++ x then jsGetInt s k else 0) := by
    apply List.map_congr_left
    intro k hk
    have hdec := listKeys_decomp s pfx k hk
    have hiff : (strDrop k (String.length pfx) = x) ↔ (k = pfx ++ x) := by
      constructor
      · intro hh
        rw [hdec, hh]
      · intro hh
        rw [hh, strDrop_append]
    exact if_congr hiff rfl rfl
  rw [hcong, sum_if_eq _ _ _ (nodup_listKeys s hnd pfx)]
  by_cases hmem : (pfx ++ x) ∈ listKeys s pfx
  · rw [if_pos hmem]
  · rw [if_neg hmem,
      jsGetInt_of_none s (pfx ++ x) (kvGet_none_of_not_listed s pfx x hmem)]

theorem pfx_append (dt x : String) :
    ("click:" ++ dt ++ ":") ++ x = "click:" ++ dt ++ ":" ++ x := by
  rw [String.append_assoc, String.append_assoc]

theorem lookupBy_scanDate (ctx : Ctx) (s : Store)
    (hnd : (s.map (fun e => e.1)).Nodup) (hpg : PagerWF ctx.pager s)
    (m : List (String × Int)) (dt x : String) :
    lookupBy (scanDate ctx s m dt) x =
      lookupBy m x + jsGetInt s ("click:" ++ dt ++ ":" ++ x) := by
  unfold scanDate
  rw [foldl_scanPage_flatten, hpg ("click:" ++ dt ++ ":"),
    lookupBy_foldl_keys, date_sum s hnd _ x, pfx_append]

theorem lookupBy_foldl_dates (ctx : Ctx) (s : Store)
    (hnd : (s.map (fun e => e.1)).Nodup) (hpg : PagerWF ctx.pager s) :
    ∀ (dates : List String) (m : List (String × Int)) (x : String),
      lookupBy (dates.foldl (scanDate ctx s) m) x =
        lookupBy m x + ((dates.map (fun dt =>
          jsGetInt s ("click:" ++ dt ++ ":" ++ x))).sum) := by
  intro dates
  induction dates with
  | nil => intro m x; simp
  | cons dt dates ih =>
    intro m x
    rw [List.foldl_cons, ih, lookupBy_scanDate ctx s hnd hpg m dt x,
      List.map_cons, List.sum_cons]
    ring

theorem lookupBy_statsBy (ctx : Ctx) (s : Store)
    (hnd : (s.map (fun e => e.1)).Nodup) (hpg : PagerWF ctx.pager s)
    (dates : List String) (x : String) :
    lookupBy (statsBy ctx s dates) x =
      ((dates.map (fun dt => jsGetInt s ("click:" ++ dt ++ ":" ++ x))).sum) := by
  unfold statsBy
  rw [lookupBy_foldl_dates ctx s hnd hpg]
  simp [lookupBy]

/-! Claim theorems. -/

/-- Claim C1, counterexample: for an authorized stats request over an
empty store, days=0 produces a 7-day window (the parsed value 0 is falsy
in JS, so the OR-7 fallback fires before the clamp) while days=1 produces
a 1-day window, so the two requests do not behave identically, refuting
the claim that days=0 behaves like days=1. -/
theorem stats_days_zero_cex :
    (fetch ctxC (statsReq (some "Bearer s0") (some "0")) []).1 =
      Response.json 7 [] ∧
    (fetch ctxC (statsReq (some "Bearer s0") (some "1")) []).1 =
      Response.json 1 [] ∧
    (fetch ctxC (statsReq (some "Bearer s0") (some "0")) []).1 ≠
      (fetch ctxC (statsReq (some "Bearer s0") (some "1")) []).1 := by
  refine ⟨rfl, rfl, by decide⟩

/-- Claim C1, amended: the days parameter defaults to 7 when absent and
falls back to 7 when non-numeric or when it parses to 0 (so days=0
behaves identically to days=7, not days=1); nonzero parsed values are
clamped to the inclusive range 1..30, so days=500 behaves identically to
days=30 and days=abc behaves identically to days=7. -/
theorem stats_days_clamp (ctx : Ctx) (a : Option String) (store : Store) :
    (fetch ctx (statsReq a (some "0")) store =
      fetch ctx (statsReq a (some "7")) store) ∧
    (fetch ctx (statsReq a (some "500")) store =
      fetch ctx (statsReq a (some "30")) store) ∧
    (fetch ctx (statsReq a (some "abc")) store =
      fetch ctx (statsReq a (some "7")) store) ∧
    (fetch ctx (statsReq a none) store =
      fetch ctx (statsReq a (some "7")) store) ∧
    (∀ q n, parseInt (strOrD q "7") = some n → n ≠ 0 →
      daysParam q = max 1 (min 30 n)) ∧
    (∀ q, parseInt (strOrD q "7") = none → daysParam q = 7) ∧
    daysParam (some "0") = 7 := by
  refine ⟨fetch_statsReq_congr ctx a store _ _ (by decide),
    fetch_statsReq_congr ctx a store _ _ (by decide),
    fetch_statsReq_congr ctx a store _ _ (by decide),
    fetch_statsReq_congr ctx a store _ _ (by decide),
    ?_, ?_, by decide⟩
  · intro q n hpn hn0
    unfold daysParam
    rw [hpn]
    have h2 : intOrD (some n) 7 = n := by simp [intOrD, hn0]
    rw [h2]
  · intro q hpn
    unfold daysParam
    rw [hpn]
    decide

/-- Witness for the amended Claim C1 at concrete inputs. -/
theorem stats_days_clamp_witness :
    fetch ctxC (statsReq (some "Bearer s0") (some "0")) [] =
      fetch ctxC (statsReq (some "Bearer s0") (some "7")) [] ∧
    daysParam (some "15") = max 1 (min 30 15) :=
  ⟨(stats_days_clamp ctxC (some "Bearer s0") []).1,
   (stats_days_clamp ctxC (some "Bearer s0") []).2.2.2.2.1
     (some "15") 15 (by decide) (by decide)⟩

/-- Claim C2: for every store with distinct keys, every pagination of the
store's prefix listing, and every authorized stats request with window
parameter days, the handler responds 200 with a JSON payload whose days
field is the clamped window size and whose by_ad_id mapping gives, for
every ad identifier, the sum over the scanned window dates of the parsed
counter value at click:date:ad (a missing or non-numeric counter counts
as 0, and an ad with no scanned key totals 0); the store is unchanged. -/
theorem stats_aggregation (ctx : Ctx) (store : Store) (q : Option String)
    (t : String)
    (hnd : (store.map (fun e => e.1)).Nodup)
    (hpg : PagerWF ctx.pager store)
    (htok : ctx.env.STATS_TOKEN = some t) (htne : t ≠ "") :
    Response.status
      (fetch ctx (statsReq (some ("Bearer " ++ t)) q) store).1 = 200 ∧
    respDays (fetch ctx (statsReq (some ("Bearer " ++ t)) q) store).1 =
      daysParam q ∧
    (fetch ctx (statsReq (some ("Bearer " ++ t)) q) store).2.1 = store ∧
    ∀ x, lookupBy
        (respBy (fetch ctx (statsReq (some ("Bearer " ++ t)) q) store).1) x =
      (((scanDates ctx (daysParam q)).map
        (fun dt => jsGetInt store ("click:" ++ dt ++ ":" ++ x))).sum) := by
  have hA : authedB ctx.env ((some ("Bearer " ++ t)).getD "") = true := by
    simp [authedB, htok, htne]
  rw [fetch_statsReq_eq, if_pos hA]
  refine ⟨rfl, rfl, rfl, ?_⟩
  intro x
  show lookupBy (statsBy ctx store (scanDates ctx (daysParam q))) x = _
  exact lookupBy_statsBy ctx store hnd hpg (scanDates ctx (daysParam q)) x

/-- Witness for Claim C2: on the spec's worked example (counters 3 and 2
for a1 over two consecutive days and 5 for b2 on the second day, with a
2-day window anchored at the second day), the totals are a1 = 5 and
b2 = 5 with a 200 response. -/
theorem stats_aggregation_witness :
    lookupBy (respBy (fetch ctxW
      (statsReq (some ("Bearer " ++ "s0")) (some "2")) storeW).1) "a1" = 5 ∧
    lookupBy (respBy (fetch ctxW
      (statsReq (some ("Bearer " ++ "s0")) (some "2")) storeW).1) "b2" = 5 ∧
    Response.status (fetch ctxW
      (statsReq (some ("Bearer " ++ "s0")) (some "2")) storeW).1 = 200 := by
  have h := stats_aggregation ctxW storeW (some "2") "s0" (by decide)
    (fun pfx => by simp [ctxW, onePager]) rfl (by decide)
  exact ⟨(h.2.2.2 "a1").trans (by decide), (h.2.2.2 "b2").trans (by decide),
    h.1⟩

/-- Claim C3: a valid log request reads the counter at click:day:ad_id
(missing or non-numeric as 0), increments by 1 and writes it back as a
decimal string, and N sequential valid log requests for the same day and
ad_id increase the counter by exactly N. -/
theorem log_counter_increment (ctx : Ctx) (body : JSBody) (store : Store)
    (N : Nat) (ha : adIdOf body ≠ "") :
    kvGet ((fetch ctx (mkLog body) store).2.1) (counterKeyOf ctx body) =
      some (jsIntToString (counterVal store (counterKeyOf ctx body) + 1)) ∧
    counterVal (iterateLog ctx body N store) (counterKeyOf ctx body) =
      counterVal store (counterKeyOf ctx body) + (N : Int) := by
  constructor
  · rw [fetch_log_valid ctx body store ha]
    exact kvGet_logStore_counter ctx body store
  · exact iterateLog_counter ctx body ha N store

/-- Witness for Claim C3: three sequential log requests on an empty store
raise the counter from 0 by exactly 3. -/
theorem log_counter_increment_witness :
    counterVal (iterateLog ctxW body0 3 ([] : Store))
      (counterKeyOf ctxW body0) =
    counterVal ([] : Store) (counterKeyOf ctxW body0) + (3 : Int) :=
  (log_counter_increment ctxW body0 [] 3 (by decide)).2

/-- Claim C4: a stats request whose configured secret is unset, or whose
authorization header differs from the string Bearer followed by the
secret, receives 401 unauthorized with no store access (empty operation
trace) and an unchanged store, regardless of the days parameter. -/
theorem stats_unauthorized (ctx : Ctx) (req : Request) (store : Store)
    (hp : req.path = "/stats") (hm : req.method = "GET")
    (hsec : ctx.env.STATS_TOKEN = none ∨
      ∃ t, ctx.env.STATS_TOKEN = some t ∧
        req.authHeader.getD "" ≠ "Bearer " ++ t) :
    fetch ctx req store = (Response.text 401 "unauthorized", store, []) := by
  apply fetch_stats_unauthed ctx req store hp hm
  rcases hsec with h | ⟨t, ht, hne⟩
  · simp [authedB, h]
  · by_cases h0 : t = ""
    · simp [authedB, ht, h0]
    · simp [authedB, ht, h0, hne]

/-- Witness for Claim C4: with no secret configured, a stats request is
rejected with 401 and no store access. -/
theorem stats_unauthorized_witness :
    fetch ctx0 (statsReq none (some "5")) [] =
      (Response.text 401 "unauthorized", [], []) :=
  stats_unauthorized ctx0 (statsReq none (some "5")) [] rfl rfl (Or.inl rfl)

/-- Claim C5: a log request whose ad_id coerces and truncates to the
empty string (including an absent field) receives 400 missing ad_id, with
an unchanged store and no store operations at all. -/
theorem log_missing_ad_id (ctx : Ctx) (body : JSBody) (store : Store)
    (h : adIdOf body = "") :
    fetch ctx (mkLog body) store =
      (Response.text 400 "missing ad_id", store, []) :=
  fetch_log_empty ctx body store h

/-- Witness for Claim C5: a body with no ad_id field is rejected and the
store is untouched. -/
theorem log_missing_ad_id_witness :
    fetch ctx0 (mkLog bodyNoAd) storeW =
      (Response.text 400 "missing ad_id", storeW, []) :=
  log_missing_ad_id ctx0 bodyNoAd storeW (by decide)

/-- Claim C6: the effective timestamp of a log request is the ts field
coerced to a string when truthy, else the current UTC instant; the day
bucket is exactly the first 10 characters of that string and the counter
key is click:day:ad_id with no date validation, so a malformed ts
produces a malformed day-bucket key (e.g. the first ten characters of
garbage-timestamp!! yield click:garbage-ti:a1). -/
theorem log_day_bucket (ctx : Ctx) (body : JSBody) (store : Store)
    (ha : adIdOf body ≠ "") :
    tsOf ctx body = (if body.ts.truthy then body.ts.toStr else ctx.nowISO) ∧
    counterKeyOf ctx body =
      "click:" ++ strTake (tsOf ctx body) 10 ++ ":" ++ adIdOf body ∧
    kvGet ((fetch ctx (mkLog body) store).2.1) (counterKeyOf ctx body) =
      some (jsIntToString (counterVal store (counterKeyOf ctx body) + 1)) ∧
    counterKeyOf ctx0 body6 = "click:garbage-ti:a1" := by
  refine ⟨rfl, rfl, ?_, by decide⟩
  rw [fetch_log_valid ctx body store ha]
  exact kvGet_logStore_counter ctx body store

/-- Witness for Claim C6 at a concrete valid body. -/
theorem log_day_bucket_witness :
    counterKeyOf ctxW body0 =
      "click:" ++ strTake (tsOf ctxW body0) 10 ++ ":" ++ adIdOf body0 ∧
    kvGet ((fetch ctxW (mkLog body0) storeW).2.1) (counterKeyOf ctxW body0) =
      some (jsIntToString (counterVal storeW (counterKeyOf ctxW body0) + 1)) := by
  have h := log_day_bucket ctxW body0 storeW (by decide)
  exact ⟨h.2.1, h.2.2.1⟩

/-- Claim C7: every valid log event unconditionally overwrites the
metadata record meta:ad_id with the JSON object of that event's genre,
page_id and page_url, with a 2592000-second (30-day) expiration set on
the write; hence after any sequence of valid log events for an ad_id the
record holds exactly the last event's fields. -/
theorem meta_last_write_wins (ctx : Ctx) (store : Store) (L : List JSBody)
    (b : JSBody) (hb : adIdOf b ≠ "")
    (_hL : ∀ x ∈ L, adIdOf x = adIdOf b ∧ adIdOf x ≠ "") :
    kvEntry (applyLogs ctx (L ++ [b]) store) ("meta:" ++ adIdOf b) =
      some (metaJSON (genreOf b) (pageIdOf b) (pageUrlOf b),
            some 2592000) := by
  rw [applyLogs_append_single, fetch_log_valid ctx b _ hb]
  exact kvEntry_logStore_meta ctx b _

/-- Witness for Claim C7: after logging body0 then body1 for the same ad,
the metadata record holds body1's fields. -/
theorem meta_last_write_wins_witness :
    kvEntry (applyLogs ctxW ([body0] ++ [body1]) ([] : Store))
      ("meta:" ++ adIdOf body1) =
    some (metaJSON (genreOf body1) (pageIdOf body1) (pageUrlOf body1),
          some 2592000) :=
  meta_last_write_wins ctxW [] [body0] body1 (by decide) (by decide)

/-- Claim C8: the invariant that every stored counter under a click:
key holds a nonnegative integer as a canonical decimal string, with a
click:day:ad_id key shape whose ad part is nonempty, holds for the empty
store and is preserved by every request the handler processes; a missing
key reads as counter value 0. -/
theorem counter_store_invariant :
    CounterInv ([] : Store) ∧
    (∀ (ctx : Ctx) (req : Request) (s : Store),
      CounterInv s → CounterInv (fetch ctx req s).2.1) ∧
    (∀ (s : Store) (k : String), kvGet s k = none → counterVal s k = 0) := by
  refine ⟨?_, ?_, ?_⟩
  · intro e he; simp at he
  · intro ctx req s hinv; exact counterInv_preserved ctx req s hinv
  · intro s k h; exact counterVal_of_get_none s k h

/-- Witness for Claim C8: the invariant is preserved across a concrete
log request applied to the empty store. -/
theorem counter_store_invariant_witness :
    CounterInv (fetch ctxW (mkLog body0) ([] : Store)).2.1 :=
  counter_store_invariant.2.1 ctxW (mkLog body0) []
    (by intro e he; simp at he)

/-- Claim C9: a successful log request performs exactly one counter read
and two writes, to the counter key and the metadata key, leaving every
other key unchanged; a stats request, authorized or not, leaves the store
unchanged and performs no write at all. -/
theorem frame_effects :
    (∀ (ctx : Ctx) (body : JSBody) (store : Store), adIdOf body ≠ "" →
      (fetch ctx (mkLog body) store).2.2 =
        [Op.get (counterKeyOf ctx body),
         Op.put (counterKeyOf ctx body)
           (jsIntToString (counterVal store (counterKeyOf ctx body) + 1))
           none,
         Op.put ("meta:" ++ adIdOf body)
           (metaJSON (genreOf body) (pageIdOf body) (pageUrlOf body))
           (some 2592000)] ∧
      ∀ k, k ≠ counterKeyOf ctx body → k ≠ "meta:" ++ adIdOf body →
        kvEntry ((fetch ctx (mkLog body) store).2.1) k = kvEntry store k) ∧
    (∀ (ctx : Ctx) (req : Request) (store : Store),
      req.path = "/stats" → req.method = "GET" →
      (fetch ctx req store).2.1 = store ∧
      ∀ (k v : String) (t : Option Nat),
        Op.put k v t ∉ (fetch ctx req store).2.2) := by
  constructor
  · intro ctx body store ha
    rw [fetch_log_valid ctx body store ha]
    exact ⟨rfl, fun k h1 h2 => kvEntry_logStore_other ctx body store k h1 h2⟩
  · intro ctx req store hp hm
    rw [fetch_stats_shape ctx req store hp hm]
    by_cases hA : authedB ctx.env (req.authHeader.getD "")
    · rw [if_pos hA]
      exact ⟨rfl, fun k v t => statsOps_no_put ctx _ k v t⟩
    · rw [if_neg hA]
      exact ⟨rfl, by intro k v t h; simp at h⟩

/-- Witness for Claim C9 at concrete requests. -/
theorem frame_effects_witness :
    kvEntry ((fetch ctxW (mkLog body0) storeW).2.1) "other" =
      kvEntry storeW "other" ∧
    (fetch ctxW (statsReq (some "Bearer s0") (some "2")) storeW).2.1 =
      storeW :=
  ⟨(frame_effects.1 ctxW body0 storeW (by decide)).2 "other"
      (by decide) (by decide),
   (frame_effects.2 ctxW (statsReq (some "Bearer s0") (some "2")) storeW
      rfl rfl).1⟩

/-- Claim C10: a log request whose ad_id field holds a falsy value (the
number 0, false, null or the empty string) is treated like an absent
ad_id: 400 missing ad_id with no store mutation, even though coercing 0
or false to a string would give a non-empty string. -/
theorem log_falsy_ad_id (ctx : Ctx) (store : Store) (ts g p u : JSValue) :
    (∀ v ∈ [JSValue.jnum 0, JSValue.jbool false, JSValue.jnull,
        JSValue.jstr ""],
      fetch ctx (mkLog ⟨ts, v, g, p, u⟩) store =
        (Response.text 400 "missing ad_id", store, [])) ∧
    JSValue.toStr (JSValue.jnum 0) = "0" ∧
    JSValue.toStr (JSValue.jbool false) = "false" := by
  refine ⟨?_, by decide, rfl⟩
  intro v hv
  have hA : adIdOf ⟨ts, v, g, p, u⟩ = "" := by
    simp only [List.mem_cons, List.mem_singleton, List.not_mem_nil,
      or_false] at hv
    rcases hv with rfl | rfl | rfl | rfl <;> rfl
  exact fetch_log_empty _ _ _ hA

/-- Witness for Claim C10: ad_id holding the number 0 is rejected. -/
theorem log_falsy_ad_id_witness :
    fetch ctx0 (mkLog ⟨.undef, .jnum 0, .undef, .undef, .undef⟩) [] =
      (Response.text 400 "missing ad_id", [], []) :=
  (log_falsy_ad_id ctx0 [] .undef .undef .undef .undef).1
    (.jnum 0) (by simp)

end Goliath
